import Mathlib

/-!
Verification development for the stream-monitor script (check.py).
Python strings are modelled as lists of characters, Python dicts as
insertion-ordered association lists, and the HTTP layer as explicit
response values.  Every definition is translated from the source file.
-/

namespace AreTheyLive

/-- Python strings, modelled as lists of characters. -/
abbrev Str := List Char

/-- Python str.lower (ASCII case mapping, which is what the configured
names and Twitch logins use). -/
def lowerStr (s : Str) : Str := s.map Char.toLower

/-- One record of the "data" list in a 200 response body from the
streams endpoint (the fields read at lines 119-126 of check.py). -/
structure StreamInfo where
  user_login : Str
  title : Str
  game_name : Str
  viewer_count : Nat
  started_at : Str
deriving DecidableEq

/-- The per-channel status stored in the result dict of
check_multiple_streamers: either the live record fields
(is_live = True branch, lines 120-126) or the offline marker
(is_live = False, line 135). -/
inductive ChannelStatus where
  | Live (title : Str) (game_name : Str) (viewer_count : Nat) (started_at : Str)
  | Offline
deriving DecidableEq

/-- The is_live field of a status dict. -/
def ChannelStatus.is_live : ChannelStatus → Bool
  | .Live _ _ _ _ => true
  | .Offline => false

/-- Python dict assignment d[k] = v: if the key is present the value is
replaced in place (insertion position kept), otherwise the pair is
appended.  This is exactly the observable semantics of CPython dicts. -/
def dictInsert {K V : Type} [DecidableEq K] (d : List (K × V)) (k : K) (v : V) :
    List (K × V) :=
  if d.any (fun p => p.1 = k) then d.map (fun p => if p.1 = k then (k, v) else p)
  else d ++ [(k, v)]

/-- Python dict lookup d.get(k): first (and, for dicts built with
dictInsert, only) binding of the key. -/
def dictGet {K V : Type} [DecidableEq K] : List (K × V) → K → Option V
  | [], _ => none
  | (k1, v) :: d, k => if k1 = k then some v else dictGet d k

/-- The keys of a dict in insertion order (Python iteration order). -/
def dictKeys {K V : Type} (d : List (K × V)) : List K := d.map Prod.fst

/-- One step of first-occurrence deduplication (the way repeated
dict assignment accumulates keys). -/
def dedupStep {K : Type} [DecidableEq K] (ks : List K) (k : K) : List K :=
  if k ∈ ks then ks else ks ++ [k]

/-- First-occurrence deduplication of a list, the key order produced by
building a Python dict from the list. -/
def pyDedup {K : Type} [DecidableEq K] (l : List K) : List K :=
  l.foldl dedupStep []

/-- Lines 118-126: the live_streamers dict, keyed by the lower-cased
login of each record, holding the Live status built from the record.
Later records with the same lower-cased login overwrite earlier ones. -/
def live_streamers (data : List StreamInfo) : List (Str × ChannelStatus) :=
  data.foldl
    (fun d r =>
      dictInsert d (lowerStr r.user_login)
        (.Live r.title r.game_name r.viewer_count r.started_at)) []

/-- Lines 131-135: the status assigned to one configured name — the
live_streamers entry at the lower-cased name if present, else Offline. -/
def statusOf (data : List StreamInfo) (name : Str) : ChannelStatus :=
  match dictGet (live_streamers data) (lowerStr name) with
  | some v => v
  | none => .Offline

/-- Lines 128-137: the result dict of check_multiple_streamers on a 200
response, keyed by the original configured spelling of each name. -/
def check_result (names : List Str) (data : List StreamInfo) :
    List (Str × ChannelStatus) :=
  names.foldl (fun d name => dictInsert d name (statusOf data name)) []

/-- The runtime errors check_multiple_streamers can raise: the explicit
raise at line 139 on a non-200 status, and a parse error (KeyError or
similar) when a 200 body lacks the expected "data" list. -/
inductive PyExc where
  | apiRequestFailed (status_code : Nat)
  | bodyParseExc
deriving DecidableEq

/-- A response from the streams endpoint: its status code, and the
parsed "data" list when the body is well-formed (none = malformed). -/
structure HttpResponse where
  status_code : Nat
  body : Option (List StreamInfo)
deriving DecidableEq

/-- Lines 112-139 of check_multiple_streamers, from the response
onwards: on a 200 with a well-formed body, the result dict; on a 200
with a malformed body, a parse error; on any non-200, the explicit
"API request failed" exception. -/
def check_multiple_streamers (names : List Str) (resp : HttpResponse) :
    Except PyExc (List (Str × ChannelStatus)) :=
  if resp.status_code = 200 then
    match resp.body with
    | some data => .ok (check_result names data)
    | none => .error .bodyParseExc
  else .error (.apiRequestFailed resp.status_code)

/-! ### Configuration loading (lines 7-48) -/

/-- Python `a or b` on an optional string: a missing or empty (falsy)
first operand yields the second operand. -/
def pyOrStr (a b : Option Str) : Option Str :=
  match a with
  | some v => if v = [] then b else some v
  | none => b

/-- Lines 40-48: every configuration key is resolved as
`env_vars.get(KEY) or os.environ.get(KEY)`, where env_vars is the dict
parsed from the .env FILE (line 37) and os.environ is the process
environment.  The file value is therefore the first operand and the
process environment the fallback. -/
def resolveSetting (fileValue procValue : Option Str) : Option Str :=
  pyOrStr fileValue procValue

/-- Python s.split(",") : splits at every comma, keeping empty pieces. -/
def pySplitCommaAux : Str → Str → List Str
  | [], acc => [acc.reverse]
  | c :: rest, acc =>
      if c = ',' then acc.reverse :: pySplitCommaAux rest []
      else pySplitCommaAux rest (c :: acc)

/-- Python s.split(","). -/
def pySplitComma (s : Str) : List Str := pySplitCommaAux s []

/-- The character class stripped by Python str.strip() with no
argument: whitespace. -/
def isPySpace (c : Char) : Bool := c.isWhitespace

/-- Python s.strip(): drop leading and trailing whitespace. -/
def pyStrip (s : Str) : Str :=
  ((s.dropWhile isPySpace).reverse.dropWhile isPySpace).reverse

/-- Lines 42-45: STREAMER_NAMES — split the configured string on
commas, strip each piece, and keep the non-empty ones.  No
deduplication of any kind is performed. -/
def streamer_names_of (s : Str) : List Str :=
  ((pySplitComma s).map pyStrip).filter (fun n => n ≠ [])

/-! ### format_viewer_count (lines 141-145)

The source computes "{0:.1f}K".format(count/1000) for count >= 1000.
count/1000 is CPython float (binary64) true division, which yields the
exact rational count/1000 rounded to the nearest binary64 value (ties
to even significand), and the :.1f formatting renders that binary64
value rounded to the nearest tenth (the exact binary value of a double
is never exactly half way between two tenths, so no decimal tie can
occur).  Both roundings are reproduced here in exact natural-number
arithmetic. -/

/-- Round num/den to the nearest natural number, ties to even. -/
def roundHalfEven (num den : Nat) : Nat :=
  if 2 * (num % den) < den then num / den
  else if den < 2 * (num % den) then num / den + 1
  else if (num / den) % 2 = 0 then num / den else num / den + 1

/-- Floor of the base-2 logarithm, with explicit fuel so that the
kernel can evaluate it. -/
def log2Aux : Nat → Nat → Nat
  | 0, _ => 0
  | fuel + 1, n => if 2 ≤ n then log2Aux fuel (n / 2) + 1 else 0

/-- Floor of the base-2 logarithm (0 for inputs below 2). -/
def flog2 (n : Nat) : Nat := log2Aux n n

/-- The binary exponent of the double count/1000, for count ≥ 1000:
the unique e with 2 ^ e ≤ count / 1000 < 2 ^ (e + 1). -/
def fexp (count : Nat) : Nat := flog2 (count / 1000)

/-- The 53-bit significand of the double count/1000: the exact
rational count/1000 scaled by 2 ^ (52 - fexp) and rounded to the
nearest integer, ties to even (IEEE round-to-nearest-even).  The value
of the double is fsig count * 2 ^ fexp count / 2 ^ 52. -/
def fsig (count : Nat) : Nat :=
  roundHalfEven (count * 2 ^ 52) (1000 * 2 ^ fexp count)

/-- The double count/1000 rendered by :.1f, expressed in tenths: the
exact value of the double, times ten, rounded to the nearest integer
(never a tie, so the half-even clause is inert). -/
def kTenths (count : Nat) : Nat :=
  roundHalfEven (10 * fsig count * 2 ^ fexp count) (2 ^ 52)

/-- The decimal digit character for d < 10. -/
def digitChar (d : Nat) : Char := Char.ofNat (48 + d)

/-- Decimal rendering of a natural number, with fuel for kernel
evaluation. -/
def natToCharsAux : Nat → Nat → Str
  | 0, _ => []
  | fuel + 1, n =>
      if n < 10 then [digitChar n]
      else natToCharsAux fuel (n / 10) ++ [digitChar (n % 10)]

/-- Python str(n) for a natural number. -/
def natToChars (n : Nat) : Str := natToCharsAux (n + 1) n

/-- Lines 141-145: format_viewer_count.  For count ≥ 1000 the rendered
string is the tenths value split as integer part, '.', one digit, and
the K suffix; below 1000 it is str(count). -/
def format_viewer_count (count : Nat) : Str :=
  if 1000 ≤ count then
    natToChars (kTenths count / 10) ++ '.' :: digitChar (kTenths count % 10) :: ['K']
  else natToChars count

/-! ### Renderer fragments from display_status -/

/-- Line 175: the title shown for a live channel — the first 55
characters plus "..." when the title is longer than 55 characters,
otherwise the title unchanged. -/
def truncate_title (title : Str) : Str :=
  if 55 < title.length then title.take 55 ++ ("...".toList) else title

/-- Line 194: the Python format field {1:<22} applied to an offline
name — left-aligned and padded with spaces to a minimum width of 22.
No precision is given, so longer names are NOT truncated. -/
def pad22 (name : Str) : Str := name ++ List.replicate (22 - name.length) ' '

/-- Lines 191-193: the offline names are emitted in rows of three
(range(0, len, 3) with slices of width 3); a final partial row keeps
the leftover one or two names. -/
def offlineRowsOf3 {α : Type} : List α → List (List α)
  | [] => []
  | a :: b :: c :: rest => [a, b, c] :: offlineRowsOf3 rest
  | l => [l]

/-! ### The control loop (lines 217-245) -/

/-- The observable phases of the control loop. -/
inductive LoopPhase where
  | Polling
  | CountingDown
  | ErrorBackoff
  | Stopped
deriving DecidableEq

/-- The observable outcome of one iteration of the while loop: the
phases entered after the Polling attempt, the total seconds slept
(CHECK_INTERVAL one-second countdown sleeps on success, one full
CHECK_INTERVAL sleep at line 232 on error), and whether the iteration
lets an exception escape the while loop. -/
structure CycleResult where
  phases : List LoopPhase
  waitSeconds : Nat
  exitsLoop : Bool
deriving DecidableEq

/-- Lines 217-232: one iteration of the while loop.  The try body
fetches; on success the countdown runs for CHECK_INTERVAL seconds; on
ANY exception the handler at line 227 (except Exception) prints the
error and sleeps the full interval.  Neither branch escapes the loop. -/
def loopCycle (interval : Nat) (names : List Str) (resp : HttpResponse) : CycleResult :=
  match check_multiple_streamers names resp with
  | .ok _ => ⟨[.CountingDown], interval, false⟩
  | .error _ => ⟨[.ErrorBackoff], interval, false⟩

/-- The phase trace of the loop over a sequence of responses: each
iteration starts with a fresh Polling attempt and appends the phases
of its cycle. -/
def runLoop (interval : Nat) (names : List Str) : List HttpResponse → List (List LoopPhase)
  | [] => []
  | r :: rs =>
      (LoopPhase.Polling :: (loopCycle interval names r).phases) :: runLoop interval names rs

/-- Whether any iteration of the loop lets an exception escape. -/
def loopEverExits (interval : Nat) (names : List Str) (rs : List HttpResponse) : Bool :=
  rs.any (fun r => (loopCycle interval names r).exitsLoop)

/-- The exception kinds that can reach the handlers at lines 234-245
around the main body. -/
inductive TopLevelExc where
  | keyboardInterrupt
  | valueError
  | otherError
deriving DecidableEq

/-- What each top-level handler prints before main returns (and the
process exits). -/
inductive TopLevelOutcome where
  | goodbyeMessage
  | configHelpMessage
  | plainErrorMessage
deriving DecidableEq

/-- Lines 234-245: KeyboardInterrupt gets the farewell, ValueError the
configuration help, and any other exception the plain error print.  In
every case main returns and the process ends. -/
def mainTopLevelHandler : TopLevelExc → TopLevelOutcome
  | .keyboardInterrupt => .goodbyeMessage
  | .valueError => .configHelpMessage
  | .otherError => .plainErrorMessage

/-! ## Helper lemmas about the dict model -/

theorem dictGet_nil {K V : Type} [DecidableEq K] (k : K) :
    dictGet ([] : List (K × V)) k = none := rfl

theorem dictGet_cons {K V : Type} [DecidableEq K] (k1 : K) (v1 : V) (d : List (K × V)) (k : K) :
    dictGet ((k1, v1) :: d) k = if k1 = k then some v1 else dictGet d k := rfl

theorem dictMem_iff {K V : Type} [DecidableEq K] (d : List (K × V)) (k : K) :
    d.any (fun p => p.1 = k) = true ↔ k ∈ dictKeys d := by
  unfold dictKeys
  simp [List.any_eq_true]

theorem map_update_of_not_mem {K V : Type} [DecidableEq K] (d : List (K × V)) (k : K) (v : V)
    (h : d.any (fun p => p.1 = k) = false) :
    d.map (fun p => if p.1 = k then (k, v) else p) = d := by
  induction d with
  | nil => rfl
  | cons p rest ih =>
      simp only [List.any_cons, Bool.or_eq_false_iff, decide_eq_false_iff_not] at h
      simp only [List.map_cons, if_neg h.1, ih h.2]

theorem dictGet_map_update {K V : Type} [DecidableEq K] (d : List (K × V)) (k kq : K) (v : V)
    (h : d.any (fun p => p.1 = k) = true) :
    dictGet (d.map (fun p => if p.1 = k then (k, v) else p)) kq
      = if k = kq then some v else dictGet d kq := by
  induction d with
  | nil => simp at h
  | cons p rest ih =>
      obtain ⟨k1, v1⟩ := p
      simp only [List.any_cons, Bool.or_eq_true, decide_eq_true_eq] at h
      by_cases hrest : rest.any (fun p => p.1 = k) = true
      · have ihr := ih hrest
        by_cases hk1 : k1 = k <;> by_cases hkq : k = kq <;> by_cases hx : k1 = kq <;>
          simp_all [List.map_cons, dictGet_cons]
      · have hk1 : k1 = k := by
          rcases h with h | h
          · exact h
          · exact absurd h hrest
        have hmap := map_update_of_not_mem rest k v (Bool.not_eq_true _ ▸ hrest)
        by_cases hkq : k = kq <;> simp_all [List.map_cons, dictGet_cons]

theorem dictGet_append_new {K V : Type} [DecidableEq K] (d : List (K × V)) (k kq : K) (v : V)
    (h : d.any (fun p => p.1 = k) = false) :
    dictGet (d ++ [(k, v)]) kq = if k = kq then some v else dictGet d kq := by
  induction d with
  | nil => simp [dictGet]
  | cons p rest ih =>
      obtain ⟨k1, v1⟩ := p
      simp only [List.any_cons, Bool.or_eq_false_iff, decide_eq_false_iff_not] at h
      have ihr := ih h.2
      have hk1 : ¬(k1 = k) := h.1
      by_cases hq : k1 = kq <;> by_cases hkq : k = kq <;>
        simp_all [List.cons_append, dictGet_cons]

theorem dictGet_dictInsert {K V : Type} [DecidableEq K] (d : List (K × V)) (k kq : K) (v : V) :
    dictGet (dictInsert d k v) kq = if k = kq then some v else dictGet d kq := by
  unfold dictInsert
  rcases hany : d.any (fun p => p.1 = k) with hf | ht
  · simp only [Bool.false_eq_true, if_false]
    exact dictGet_append_new d k kq v hany
  · simp only [if_true]
    exact dictGet_map_update d k kq v hany

theorem dictGet_fold_not_mem {α K V : Type} [DecidableEq K] (f : α → K) (g : α → V)
    (xs : List α) (init : List (K × V)) (k : K) (h : ∀ x ∈ xs, f x ≠ k) :
    dictGet (xs.foldl (fun d x => dictInsert d (f x) (g x)) init) k = dictGet init k := by
  induction xs generalizing init with
  | nil => rfl
  | cons x0 rest ih =>
      simp only [List.foldl_cons]
      rw [ih (dictInsert init (f x0) (g x0)) fun x hx => h x (List.mem_cons_of_mem x0 hx)]
      rw [dictGet_dictInsert, if_neg (h x0 (List.mem_cons_self x0 rest))]

theorem dictGet_fold_mem {α K V : Type} [DecidableEq K] (f : α → K) (g : α → V)
    (xs : List α) (init : List (K × V)) (k : K) (h : ∃ x ∈ xs, f x = k) :
    ∃ x, x ∈ xs ∧ f x = k ∧
      dictGet (xs.foldl (fun d x => dictInsert d (f x) (g x)) init) k = some (g x) := by
  induction xs generalizing init with
  | nil => simp at h
  | cons x0 rest ih =>
      simp only [List.foldl_cons]
      by_cases hr : ∃ x ∈ rest, f x = k
      · obtain ⟨x, hx, hfx, heq⟩ := ih (dictInsert init (f x0) (g x0)) hr
        exact ⟨x, List.mem_cons_of_mem x0 hx, hfx, heq⟩
      · push_neg at hr
        have hx0 : f x0 = k := by
          obtain ⟨x, hx, hfx⟩ := h
          rcases List.mem_cons.mp hx with he | hm
          · exact he ▸ hfx
          · exact absurd hfx (hr x hm)
        refine ⟨x0, List.mem_cons_self x0 rest, hx0, ?_⟩
        rw [dictGet_fold_not_mem f g rest (dictInsert init (f x0) (g x0)) k hr]
        rw [dictGet_dictInsert, if_pos hx0]

theorem dictKeys_dictInsert {K V : Type} [DecidableEq K] (d : List (K × V)) (k : K) (v : V) :
    dictKeys (dictInsert d k v) = dedupStep (dictKeys d) k := by
  unfold dictInsert dedupStep
  by_cases hany : d.any (fun p => p.1 = k) = true
  · have hm : k ∈ dictKeys d := (dictMem_iff d k).mp hany
    rw [if_pos hany, if_pos hm]
    unfold dictKeys
    rw [List.map_map]
    apply List.map_congr_left
    intro p _
    by_cases hp : p.1 = k
    · simp [Function.comp, hp]
    · simp [Function.comp, hp]
  · have hnm : ¬ k ∈ dictKeys d := fun hm => hany ((dictMem_iff d k).mpr hm)
    rw [if_neg hany, if_neg hnm]
    unfold dictKeys
    simp

theorem dictKeys_fold {α K V : Type} [DecidableEq K] (f : α → K) (g : α → V)
    (xs : List α) (init : List (K × V)) :
    dictKeys (xs.foldl (fun d x => dictInsert d (f x) (g x)) init)
      = xs.foldl (fun ks x => dedupStep ks (f x)) (dictKeys init) := by
  induction xs generalizing init with
  | nil => rfl
  | cons x0 rest ih =>
      simp only [List.foldl_cons]
      rw [ih (dictInsert init (f x0) (g x0)), dictKeys_dictInsert]

theorem mem_dedupStep {K : Type} [DecidableEq K] (ks : List K) (a x : K) :
    x ∈ dedupStep ks a ↔ x ∈ ks ∨ x = a := by
  unfold dedupStep
  by_cases hm : a ∈ ks
  · rw [if_pos hm]
    constructor
    · exact Or.inl
    · rintro (hx | rfl)
      · exact hx
      · exact hm
  · rw [if_neg hm]
    simp

theorem mem_dedupFold {K : Type} [DecidableEq K] (l : List K) (init : List K) (x : K) :
    x ∈ l.foldl dedupStep init ↔ x ∈ init ∨ x ∈ l := by
  induction l generalizing init with
  | nil => simp
  | cons a rest ih =>
      simp only [List.foldl_cons, ih (dedupStep init a), mem_dedupStep, List.mem_cons]
      tauto

theorem nodup_dedupFold {K : Type} [DecidableEq K] (l : List K) (init : List K)
    (h : init.Nodup) : (l.foldl dedupStep init).Nodup := by
  induction l generalizing init with
  | nil => exact h
  | cons a rest ih =>
      apply ih
      unfold dedupStep
      by_cases hm : a ∈ init
      · rwa [if_pos hm]
      · rw [if_neg hm]
        simp [List.nodup_append, h, hm]

theorem length_dedupFold {K : Type} [DecidableEq K] (l : List K) (init : List K) :
    (l.foldl dedupStep init).length ≤ init.length + l.length := by
  induction l generalizing init with
  | nil => simp
  | cons a rest ih =>
      simp only [List.foldl_cons, List.length_cons]
      have h1 := ih (dedupStep init a)
      have h2 : (dedupStep init a).length ≤ init.length + 1 := by
        unfold dedupStep
        by_cases hm : a ∈ init
        · rw [if_pos hm]; omega
        · rw [if_neg hm]; simp
      omega

theorem dedupFold_of_nodup {K : Type} [DecidableEq K] (l : List K) (h : l.Nodup) :
    ∀ init : List K, (∀ x ∈ l, x ∉ init) → l.foldl dedupStep init = init ++ l := by
  induction l with
  | nil => intro init _; simp
  | cons a rest ih =>
      intro init hdisj
      rw [List.nodup_cons] at h
      have hna : a ∉ init := hdisj a (List.mem_cons_self a rest)
      simp only [List.foldl_cons]
      rw [show dedupStep init a = init ++ [a] from if_neg hna]
      rw [ih h.2 (init ++ [a]) ?_]
      · simp
      · intro x hx
        simp only [List.mem_append, List.mem_singleton]
        rintro (hxi | rfl)
        · exact hdisj x (List.mem_cons_of_mem a hx) hxi
        · exact h.1 hx

theorem mem_pyDedup {K : Type} [DecidableEq K] (l : List K) (x : K) :
    x ∈ pyDedup l ↔ x ∈ l := by
  unfold pyDedup
  rw [mem_dedupFold]
  simp

theorem pyDedup_nodup {K : Type} [DecidableEq K] (l : List K) : (pyDedup l).Nodup :=
  nodup_dedupFold l [] List.nodup_nil

theorem pyDedup_length {K : Type} [DecidableEq K] (l : List K) :
    (pyDedup l).length ≤ l.length := by
  have := length_dedupFold l ([] : List K)
  simpa using this

theorem pyDedup_of_nodup {K : Type} [DecidableEq K] (l : List K) (h : l.Nodup) :
    pyDedup l = l := by
  unfold pyDedup
  rw [dedupFold_of_nodup l h [] (by simp)]
  simp

theorem dictGet_check_result (names : List Str) (data : List StreamInfo) (n : Str)
    (h : n ∈ names) :
    dictGet (check_result names data) n = some (statusOf data n) := by
  unfold check_result
  obtain ⟨x, hx, hfx, heq⟩ :=
    dictGet_fold_mem (fun a => a) (statusOf data) names [] n ⟨n, h, rfl⟩
  subst hfx
  exact heq

theorem dictKeys_check_result (names : List Str) (data : List StreamInfo) :
    dictKeys (check_result names data) = pyDedup names := by
  unfold check_result pyDedup
  exact dictKeys_fold (fun a => a) (statusOf data) names []

theorem statusOf_offline (data : List StreamInfo) (n : Str)
    (h : ∀ r ∈ data, lowerStr r.user_login ≠ lowerStr n) :
    statusOf data n = .Offline := by
  unfold statusOf live_streamers
  rw [dictGet_fold_not_mem (fun r => lowerStr r.user_login)
    (fun r => ChannelStatus.Live r.title r.game_name r.viewer_count r.started_at)
    data [] (lowerStr n) h]
  rfl

theorem statusOf_live (data : List StreamInfo) (n : Str)
    (h : ∃ r ∈ data, lowerStr r.user_login = lowerStr n) :
    ∃ t g v s, statusOf data n = .Live t g v s := by
  unfold statusOf live_streamers
  obtain ⟨r, _, _, heq⟩ :=
    dictGet_fold_mem (fun r => lowerStr r.user_login)
      (fun r => ChannelStatus.Live r.title r.game_name r.viewer_count r.started_at)
      data [] (lowerStr n) h
  rw [heq]
  exact ⟨r.title, r.game_name, r.viewer_count, r.started_at, rfl⟩

/-! ## Claim C1 -/

/-- C1: for every live-set response record whose login name equals a
configured channel name up to case, check_multiple_streamers marks
that configured name as Live, and the key of the resulting mapping is
the original configured spelling. -/
theorem check_live_case_insensitive (names : List Str) (data : List StreamInfo)
    (name : Str) (r : StreamInfo)
    (h1 : name ∈ names) (h2 : r ∈ data)
    (h3 : lowerStr r.user_login = lowerStr name) :
    (∃ t g v s, dictGet (check_result names data) name
        = some (ChannelStatus.Live t g v s))
    ∧ name ∈ dictKeys (check_result names data) := by
  constructor
  · rw [dictGet_check_result names data name h1]
    obtain ⟨t, g, v, s, hs⟩ := statusOf_live data name ⟨r, h2, h3⟩
    exact ⟨t, g, v, s, by rw [hs]⟩
  · rw [dictKeys_check_result]
    exact (mem_pyDedup names name).mpr h1

/-- Witness for C1 at the example of the spec: record login "Foo",
configured name "foo". -/
theorem check_live_case_insensitive_witness :
    (∃ t g v s, dictGet (check_result ["foo".toList]
        [⟨"Foo".toList, "t".toList, "g".toList, 5, "s".toList⟩]) ("foo".toList)
      = some (ChannelStatus.Live t g v s))
    ∧ "foo".toList ∈ dictKeys (check_result ["foo".toList]
        [⟨"Foo".toList, "t".toList, "g".toList, 5, "s".toList⟩]) :=
  check_live_case_insensitive ["foo".toList]
    [⟨"Foo".toList, "t".toList, "g".toList, 5, "s".toList⟩] ("foo".toList)
    ⟨"Foo".toList, "t".toList, "g".toList, 5, "s".toList⟩
    (by decide) (by decide) (by decide)

/-! ## Claim C2 -/

/-- C2: on a 200 response, check_multiple_streamers returns the result
dict; its keys are the configured names in configured order (duplicate
configured entries collapse, so the list equality is stated for
duplicate-free name lists, the key set always covering exactly the
configured names), and every configured name matching no live record
is mapped to Offline. -/
theorem check_result_covers_configured_names (names : List Str) (data : List StreamInfo)
    (resp : HttpResponse) (h200 : resp.status_code = 200) (hbody : resp.body = some data) :
    check_multiple_streamers names resp = .ok (check_result names data)
    ∧ (∀ k, k ∈ dictKeys (check_result names data) ↔ k ∈ names)
    ∧ (names.Nodup → dictKeys (check_result names data) = names)
    ∧ ∀ n ∈ names, (∀ r ∈ data, lowerStr r.user_login ≠ lowerStr n) →
        dictGet (check_result names data) n = some ChannelStatus.Offline := by
  refine ⟨?_, ?_, ?_, ?_⟩
  · simp [check_multiple_streamers, h200, hbody]
  · intro k
    rw [dictKeys_check_result]
    exact mem_pyDedup names k
  · intro hnd
    rw [dictKeys_check_result]
    exact pyDedup_of_nodup names hnd
  · intro n hn hoff
    rw [dictGet_check_result names data n hn, statusOf_offline data n hoff]

/-- Witness for C2 at the example of the spec: configured names a, b, c
and an empty live-record list; the keys are exactly a, b, c in order
and b is Offline. -/
theorem check_result_covers_configured_names_witness :
    dictKeys (check_result ["a".toList, "b".toList, "c".toList] [])
      = ["a".toList, "b".toList, "c".toList]
    ∧ dictGet (check_result ["a".toList, "b".toList, "c".toList] []) ("b".toList)
      = some ChannelStatus.Offline :=
  ⟨(check_result_covers_configured_names ["a".toList, "b".toList, "c".toList] []
      ⟨200, some []⟩ (by decide) rfl).2.2.1 (by decide),
   (check_result_covers_configured_names ["a".toList, "b".toList, "c".toList] []
      ⟨200, some []⟩ (by decide) rfl).2.2.2 ("b".toList) (by decide) (by decide)⟩

/-! ## Claim C10 -/

/-- C10: the key list of the result dict is the first-occurrence
deduplication of the configured list — its key set is the set of
distinct configured strings, it has no duplicate keys, it can be
shorter than the configured list — and two configured entries equal up
to case are both keys and are bound to the same status. -/
theorem check_result_distinct_key_semantics (names : List Str) (data : List StreamInfo) :
    dictKeys (check_result names data) = pyDedup names
    ∧ (∀ k, k ∈ dictKeys (check_result names data) ↔ k ∈ names)
    ∧ (dictKeys (check_result names data)).Nodup
    ∧ (dictKeys (check_result names data)).length ≤ names.length
    ∧ ∀ n1 n2, n1 ∈ names → n2 ∈ names → lowerStr n1 = lowerStr n2 →
        dictGet (check_result names data) n1 = dictGet (check_result names data) n2 := by
  have hk := dictKeys_check_result names data
  refine ⟨hk, ?_, ?_, ?_, ?_⟩
  · intro k
    rw [hk]
    exact mem_pyDedup names k
  · rw [hk]
    exact pyDedup_nodup names
  · rw [hk]
    exact pyDedup_length names
  · intro n1 n2 hn1 hn2 hl
    rw [dictGet_check_result names data n1 hn1, dictGet_check_result names data n2 hn2]
    unfold statusOf
    rw [hl]

/-- Witness for C10: names differing only in case are distinct keys
bound to the same (live) status, and two identical configured entries
collapse into one key. -/
theorem check_result_distinct_key_semantics_witness :
    dictGet (check_result ["A".toList, "a".toList]
        [⟨"a".toList, "t".toList, "g".toList, 1, "s".toList⟩]) ("A".toList)
      = dictGet (check_result ["A".toList, "a".toList]
        [⟨"a".toList, "t".toList, "g".toList, 1, "s".toList⟩]) ("a".toList)
    ∧ (dictKeys (check_result ["a".toList, "a".toList] [])).length
        < (["a".toList, "a".toList] : List Str).length :=
  ⟨(check_result_distinct_key_semantics _ _).2.2.2.2 _ _ (by decide) (by decide) (by decide),
   by decide⟩

/-! ## Control-loop helper lemmas -/

theorem loopCycle_exits_false (interval : Nat) (names : List Str) (resp : HttpResponse) :
    (loopCycle interval names resp).exitsLoop = false := by
  unfold loopCycle
  split <;> rfl

theorem loopCycle_wait (interval : Nat) (names : List Str) (resp : HttpResponse) :
    (loopCycle interval names resp).waitSeconds = interval := by
  unfold loopCycle
  split <;> rfl

theorem loopCycle_of_error (interval : Nat) (names : List Str) (resp : HttpResponse)
    (e : PyExc) (h : check_multiple_streamers names resp = .error e) :
    loopCycle interval names resp = ⟨[LoopPhase.ErrorBackoff], interval, false⟩ := by
  unfold loopCycle
  rw [h]

theorem loopEverExits_false (interval : Nat) (names : List Str) (rs : List HttpResponse) :
    loopEverExits interval names rs = false := by
  unfold loopEverExits
  simp [List.any_eq_false, loopCycle_exits_false]

theorem runLoop_all_errors (interval : Nat) (names : List Str) (rs : List HttpResponse)
    (h : ∀ r ∈ rs, r.status_code ≠ 200) :
    runLoop interval names rs
      = rs.map (fun _ => [LoopPhase.Polling, LoopPhase.ErrorBackoff]) := by
  induction rs with
  | nil => rfl
  | cons r rest ih =>
      simp only [runLoop, List.map_cons]
      rw [loopCycle_of_error interval names r (.apiRequestFailed r.status_code) ?_]
      · rw [ih (fun x hx => h x (List.mem_cons_of_mem r hx))]
      · unfold check_multiple_streamers
        rw [if_neg (h r (List.mem_cons_self r rest))]

/-! ## Claim C3 -/

/-- C3: a non-200 response raises the FetchError, which is contained:
each such cycle shows ErrorBackoff after its Polling attempt, waits the
full interval, never escapes the loop, and every failed cycle behaves
identically with no retry limit. -/
theorem fetch_error_contained (interval : Nat) (names : List Str) (rs : List HttpResponse)
    (h : ∀ r ∈ rs, r.status_code ≠ 200) :
    (∀ r ∈ rs, check_multiple_streamers names r
        = .error (.apiRequestFailed r.status_code))
    ∧ runLoop interval names rs
        = rs.map (fun _ => [LoopPhase.Polling, LoopPhase.ErrorBackoff])
    ∧ loopEverExits interval names rs = false
    ∧ ∀ r ∈ rs, (loopCycle interval names r).waitSeconds = interval := by
  refine ⟨?_, runLoop_all_errors interval names rs h, loopEverExits_false interval names rs,
    fun r _ => loopCycle_wait interval names r⟩
  intro r hr
  unfold check_multiple_streamers
  rw [if_neg (h r hr)]

/-- Witness for C3: two consecutive failed polls (404 then 500) each
produce Polling then ErrorBackoff and the loop never exits. -/
theorem fetch_error_contained_witness :
    runLoop 60 [] [⟨404, none⟩, ⟨500, some []⟩]
      = [[LoopPhase.Polling, LoopPhase.ErrorBackoff],
         [LoopPhase.Polling, LoopPhase.ErrorBackoff]]
    ∧ loopEverExits 60 [] [⟨404, none⟩, ⟨500, some []⟩] = false :=
  ⟨(fetch_error_contained 60 [] [⟨404, none⟩, ⟨500, some []⟩] (by decide)).2.1,
   (fetch_error_contained 60 [] [⟨404, none⟩, ⟨500, some []⟩] (by decide)).2.2.1⟩

/-! ## Claim C4 -/

/-- C4 counterexample: a parse error on a malformed 200 response body
is NOT one of the taxonomy kinds, yet inside the loop it does not make
the process exit — the cycle goes to ErrorBackoff and retries, exactly
like a FetchError, contradicting the claim that such errors exit. -/
theorem unexpected_error_exits_counterexample :
    check_multiple_streamers [] ⟨200, none⟩ = .error .bodyParseExc
    ∧ (loopCycle 60 [] ⟨200, none⟩).exitsLoop = false
    ∧ (loopCycle 60 [] ⟨200, none⟩).phases = [LoopPhase.ErrorBackoff] :=
  ⟨rfl, rfl, rfl⟩

/-- C4 amended: EVERY exception raised inside the running loop
(FetchError or not, including a parse error on a malformed 200 body)
is caught by the per-cycle handler and retried after the full
interval; only an unexpected error raised outside the loop reaches the
top-level handler, which prints it before the process exits. -/
theorem loop_retries_every_exception (interval : Nat) (names : List Str)
    (resp : HttpResponse) (e : PyExc)
    (h : check_multiple_streamers names resp = .error e) :
    loopCycle interval names resp = ⟨[LoopPhase.ErrorBackoff], interval, false⟩
    ∧ (loopCycle interval names resp).exitsLoop = false
    ∧ mainTopLevelHandler .otherError = .plainErrorMessage :=
  ⟨loopCycle_of_error interval names resp e h,
   loopCycle_exits_false interval names resp, rfl⟩

/-- Witness for C4 (amended) at the malformed-200 input. -/
theorem loop_retries_every_exception_witness :
    loopCycle 60 [] ⟨200, none⟩ = ⟨[LoopPhase.ErrorBackoff], 60, false⟩
    ∧ (loopCycle 60 [] ⟨200, none⟩).exitsLoop = false
    ∧ mainTopLevelHandler .otherError = .plainErrorMessage :=
  loop_retries_every_exception 60 [] ⟨200, none⟩ .bodyParseExc rfl

/-! ## Claim C5 -/

/-- C5 counterexample: when the .env file and the process environment
both define a key (file value "a", process value "b"), the resolved
value is the FILE value, not the process-environment value the claim
requires. -/
theorem config_process_env_first_counterexample :
    resolveSetting (some ['a']) (some ['b']) = some ['a']
    ∧ resolveSetting (some ['a']) (some ['b']) ≠ some ['b'] := by
  decide

/-- C5 amended: the Config Loader resolves each key from the .env FILE
first and falls back to the process environment only when the file
does not supply a non-empty value; when both sources define a key the
file value wins. -/
theorem config_env_file_first (fv : Str) (pv : Option Str) (h : fv ≠ []) :
    resolveSetting (some fv) pv = some fv
    ∧ resolveSetting none pv = pv
    ∧ resolveSetting (some []) pv = pv := by
  refine ⟨?_, rfl, rfl⟩
  simp [resolveSetting, pyOrStr, h]

/-- Witness for C5 (amended). -/
theorem config_env_file_first_witness :
    resolveSetting (some ['x']) (some ['y']) = some ['x']
    ∧ resolveSetting none (some ['y']) = some ['y']
    ∧ resolveSetting (some []) (some ['y']) = some ['y'] :=
  config_env_file_first ['x'] (some ['y']) (by decide)

/-! ## Claim C6 -/

theorem head?_dropWhile_false {α : Type} (p : α → Bool) (l : List α) (c : α)
    (h : (l.dropWhile p).head? = some c) : p c = false := by
  induction l with
  | nil => simp [List.dropWhile] at h
  | cons a t ih =>
      rw [List.dropWhile_cons] at h
      by_cases hp : p a = true
      · rw [if_pos hp] at h
        exact ih h
      · rw [if_neg hp] at h
        simp only [List.head?_cons, Option.some.injEq] at h
        subst h
        simpa using hp

theorem suffix_getLast?_eq {α : Type} (l1 l2 : List α) (h : l1 <:+ l2) (hne : l1 ≠ []) :
    l1.getLast? = l2.getLast? := by
  obtain ⟨t, rfl⟩ := h
  exact (List.getLast?_append_of_ne_nil t hne).symm

theorem pyStrip_head (x : Str) (c : Char) (h : (pyStrip x).head? = some c) :
    isPySpace c = false := by
  unfold pyStrip at h
  rw [List.head?_reverse] at h
  have hwne : (x.dropWhile isPySpace).reverse.dropWhile isPySpace ≠ [] := by
    intro he
    rw [he] at h
    simp at h
  rw [suffix_getLast?_eq _ _ (List.dropWhile_suffix isPySpace) hwne] at h
  rw [List.getLast?_reverse] at h
  exact head?_dropWhile_false isPySpace x c h

theorem pyStrip_last (x : Str) (c : Char) (h : (pyStrip x).getLast? = some c) :
    isPySpace c = false := by
  unfold pyStrip at h
  rw [List.getLast?_reverse] at h
  exact head?_dropWhile_false isPySpace _ c h

/-- C6 counterexample: the configured list is NOT deduplicated
case-insensitively — the input "Foo,foo" yields two distinct entries
that are equal under case-insensitive comparison. -/
theorem streamer_names_case_dedup_counterexample :
    streamer_names_of ("Foo,foo".toList) = ["Foo".toList, "foo".toList]
    ∧ lowerStr ("Foo".toList) = lowerStr ("foo".toList)
    ∧ ("Foo".toList : Str) ≠ "foo".toList := by
  decide

/-- C6 (amended): every entry of the configured channel list is
whitespace-trimmed (no leading or trailing whitespace) and non-empty,
and the example input parses as the spec says; no deduplication of any
kind (exact or case-insensitive) is performed. -/
theorem streamer_names_trimmed_nonempty (s : Str) :
    (∀ n ∈ streamer_names_of s, n ≠ []
      ∧ (∀ c, n.head? = some c → isPySpace c = false)
      ∧ (∀ c, n.getLast? = some c → isPySpace c = false))
    ∧ streamer_names_of ("  foo ,,bar".toList) = ["foo".toList, "bar".toList] := by
  constructor
  · intro n hn
    unfold streamer_names_of at hn
    rw [List.mem_filter] at hn
    obtain ⟨hmap, hne⟩ := hn
    rw [List.mem_map] at hmap
    obtain ⟨x, _, rfl⟩ := hmap
    refine ⟨by simpa using hne, ?_, ?_⟩
    · exact fun c hc => pyStrip_head x c hc
    · exact fun c hc => pyStrip_last x c hc
  · decide

/-- Witness for C6 (amended): the entry parsed from "  x " has a
non-whitespace first character, and the example parses as stated. -/
theorem streamer_names_trimmed_nonempty_witness :
    isPySpace 'x' = false
    ∧ streamer_names_of ("  foo ,,bar".toList) = ["foo".toList, "bar".toList] :=
  ⟨((streamer_names_trimmed_nonempty ("  x ".toList)).1 ("x".toList)
      (by decide)).2.1 'x' (by decide),
   (streamer_names_trimmed_nonempty ("  foo ,,bar".toList)).2⟩

/-! ## Claim C7 -/

theorem roundHalfEven_err (num den : Nat) (hd : 0 < den) :
    2 * num ≤ 2 * (den * roundHalfEven num den) + den
    ∧ 2 * (den * roundHalfEven num den) ≤ 2 * num + den := by
  have hmod : den * (num / den) + num % den = num := Nat.div_add_mod num den
  have hlt : num % den < den := Nat.mod_lt _ hd
  unfold roundHalfEven
  split_ifs with h1 h2 h3 <;>
    (try simp only [Nat.mul_add, Nat.mul_one]) <;>
    (generalize hq : num / den = q at *) <;>
    (generalize hr : num % den = r at *) <;>
    (generalize hM : den * q = M at *) <;>
    omega

theorem log2Aux_le (fuel : Nat) : ∀ n k : Nat, n < 2 ^ (k + 1) → log2Aux fuel n ≤ k := by
  induction fuel with
  | zero => intro n k _; exact Nat.zero_le k
  | succ fuel ih =>
      intro n k h
      unfold log2Aux
      by_cases h2 : 2 ≤ n
      · rw [if_pos h2]
        cases k with
        | zero =>
            exfalso
            rw [show (2:Nat) ^ (0 + 1) = 2 from by norm_num] at h
            omega
        | succ k0 =>
            have hdiv : n / 2 < 2 ^ (k0 + 1) := by
              rw [show (2:Nat) ^ (k0 + 1 + 1) = 2 * 2 ^ (k0 + 1) from by ring] at h
              omega
            exact Nat.add_le_add_right (ih (n / 2) k0 hdiv) 1
      · rw [if_neg h2]
        exact Nat.zero_le k

theorem fexp_le_of_le (count : Nat) (h : count ≤ 10 ^ 15) : fexp count ≤ 39 := by
  unfold fexp flog2
  apply log2Aux_le
  have h1 : count / 1000 ≤ 10 ^ 15 / 1000 := Nat.div_le_div_right h
  rw [show (10:Nat) ^ 15 / 1000 = 1000000000000 from by norm_num] at h1
  rw [show (2:Nat) ^ (39 + 1) = 1099511627776 from by norm_num]
  omega

theorem kTenths_accuracy (count : Nat) (h2 : count ≤ 10 ^ 15) :
    100 * kTenths count ≤ count + 50 ∧ count ≤ 100 * kTenths count + 50 := by
  have he : fexp count ≤ 39 := fexp_le_of_le count h2
  have hP : (2:Nat) ^ fexp count ≤ 2 ^ 39 := Nat.pow_le_pow_right (by norm_num) he
  have hA := roundHalfEven_err (count * 2 ^ 52) (1000 * 2 ^ fexp count) (by positivity)
  have hB := roundHalfEven_err (10 * fsig count * 2 ^ fexp count) (2 ^ 52) (by positivity)
  rw [show roundHalfEven (count * 2 ^ 52) (1000 * 2 ^ fexp count) = fsig count from rfl] at hA
  rw [show roundHalfEven (10 * fsig count * 2 ^ fexp count) (2 ^ 52) = kTenths count
    from rfl] at hB
  obtain ⟨hA1, hA2⟩ := hA
  obtain ⟨hB1, hB2⟩ := hB
  rw [show 1000 * 2 ^ fexp count * fsig count = 1000 * (fsig count * 2 ^ fexp count)
    from by ring] at hA1 hA2
  rw [show 10 * fsig count * 2 ^ fexp count = 10 * (fsig count * 2 ^ fexp count)
    from by ring] at hB1 hB2
  generalize hMM : fsig count * 2 ^ fexp count = M at hA1 hA2 hB1 hB2
  generalize hPP : (2:Nat) ^ fexp count = P at hP hA1 hA2
  generalize htt : kTenths count = t at hB1 hB2 ⊢
  rw [show (2:Nat) ^ 52 = 4503599627370496 from by norm_num] at hA1 hA2 hB1 hB2
  rw [show (2:Nat) ^ 39 = 549755813888 from by norm_num] at hP
  omega

/-- C7 counterexample: at count = 1000·2^52 + 500 the binary64 value
of count/1000 rounds (ties to even) half a unit down, so the rendered
tenths value differs from count/1000 by five hundred thousandths —
far beyond the half-tenth that "the one-decimal thousands value"
allows — refuting the claim in its for-every-count form. -/
theorem format_viewer_count_precision_counterexample :
    100 * kTenths (1000 * 2 ^ 52 + 500) + 50 < 1000 * 2 ^ 52 + 500 := by
  decide

/-- C7 (amended): format_viewer_count returns the plain decimal string
for count < 1000 and, for count ≥ 1000, the one-decimal thousands
value with a K suffix, the rendered tenths value being within half a
tenth of count/1000 for all counts up to 10^15 (beyond double
precision this can fail); the three particular values hold exactly. -/
theorem format_viewer_count_spec (count : Nat) :
    (count < 1000 → format_viewer_count count = natToChars count)
    ∧ (1000 ≤ count → format_viewer_count count
        = natToChars (kTenths count / 10) ++ '.' :: digitChar (kTenths count % 10) :: ['K'])
    ∧ (count ≤ 10 ^ 15 →
        100 * kTenths count ≤ count + 50 ∧ count ≤ 100 * kTenths count + 50)
    ∧ format_viewer_count 999 = "999".toList
    ∧ format_viewer_count 1000 = "1.0K".toList
    ∧ format_viewer_count 12345 = "12.3K".toList := by
  refine ⟨?_, ?_, kTenths_accuracy count, by decide, by decide, by decide⟩
  · intro h
    unfold format_viewer_count
    rw [if_neg (by omega)]
  · intro h
    unfold format_viewer_count
    rw [if_pos h]

/-- Witness for C7 (amended) at count = 12345. -/
theorem format_viewer_count_spec_witness :
    format_viewer_count 12345
      = natToChars (kTenths 12345 / 10) ++ '.' :: digitChar (kTenths 12345 % 10) :: ['K']
    ∧ 100 * kTenths 12345 ≤ 12345 + 50 ∧ 12345 ≤ 100 * kTenths 12345 + 50 :=
  ⟨(format_viewer_count_spec 12345).2.1 (by decide),
   (format_viewer_count_spec 12345).2.2.1 (by decide)⟩

/-! ## Claim C8 -/

/-- C8: titles of length at most 55 render unmodified; longer titles
render as their first 55 characters followed by the three-dot
ellipsis. -/
theorem truncate_title_spec (t : Str) :
    (t.length ≤ 55 → truncate_title t = t)
    ∧ (55 < t.length →
        truncate_title t = t.take 55 ++ ("...".toList)
        ∧ (truncate_title t).length = 58) := by
  constructor
  · intro h
    unfold truncate_title
    rw [if_neg (by omega)]
  · intro h
    have he : truncate_title t = t.take 55 ++ ("...".toList) := by
      unfold truncate_title
      rw [if_pos h]
    refine ⟨he, ?_⟩
    rw [he]
    rw [List.length_append, List.length_take]
    have h3 : ("...".toList).length = 3 := rfl
    omega

/-- Witness for C8 at a 55-character and a 56-character title. -/
theorem truncate_title_spec_witness :
    truncate_title (List.replicate 55 'a') = List.replicate 55 'a'
    ∧ truncate_title (List.replicate 56 'a')
        = (List.replicate 56 'a').take 55 ++ ("...".toList)
    ∧ (truncate_title (List.replicate 56 'a')).length = 58 :=
  ⟨(truncate_title_spec (List.replicate 55 'a')).1 (by decide),
   ((truncate_title_spec (List.replicate 56 'a')).2 (by decide)).1,
   ((truncate_title_spec (List.replicate 56 'a')).2 (by decide)).2⟩

/-! ## Claim C9 -/

theorem rows3_join {α : Type} (l : List α) : (offlineRowsOf3 l).flatten = l := by
  match l with
  | [] => rfl
  | [a] => rfl
  | [a, b] => rfl
  | a :: b :: c :: rest =>
      have ih := rows3_join rest
      rw [show offlineRowsOf3 (a :: b :: c :: rest) = [a, b, c] :: offlineRowsOf3 rest
        from rfl]
      rw [List.flatten_cons, ih]
      rfl

theorem rows3_shape {α : Type} (l : List α) :
    ∀ row ∈ offlineRowsOf3 l, 0 < row.length ∧ row.length ≤ 3 := by
  match l with
  | [] => intro row hr; simp [offlineRowsOf3] at hr
  | [a] =>
      intro row hr
      rw [show offlineRowsOf3 [a] = [[a]] from rfl] at hr
      rw [List.mem_singleton] at hr
      subst hr
      simp
  | [a, b] =>
      intro row hr
      rw [show offlineRowsOf3 [a, b] = [[a, b]] from rfl] at hr
      rw [List.mem_singleton] at hr
      subst hr
      simp
  | a :: b :: c :: rest =>
      intro row hr
      rw [show offlineRowsOf3 (a :: b :: c :: rest) = [a, b, c] :: offlineRowsOf3 rest
        from rfl] at hr
      rw [List.mem_cons] at hr
      rcases hr with rfl | hr
      · simp
      · exact rows3_shape rest row hr

theorem rows3_full_rows {α : Type} (l : List α) :
    ∀ row ∈ (offlineRowsOf3 l).dropLast, row.length = 3 := by
  match l with
  | [] => intro row hr; simp [offlineRowsOf3] at hr
  | [a] =>
      intro row hr
      rw [show offlineRowsOf3 [a] = [[a]] from rfl] at hr
      simp at hr
  | [a, b] =>
      intro row hr
      rw [show offlineRowsOf3 [a, b] = [[a, b]] from rfl] at hr
      simp at hr
  | a :: b :: c :: rest =>
      intro row hr
      rw [show offlineRowsOf3 (a :: b :: c :: rest) = [a, b, c] :: offlineRowsOf3 rest
        from rfl] at hr
      cases hrest : offlineRowsOf3 rest with
      | nil =>
          rw [hrest] at hr
          simp at hr
      | cons r0 rtail =>
          rw [hrest] at hr
          rw [List.dropLast_cons₂] at hr
          rw [List.mem_cons] at hr
          rcases hr with rfl | hr
          · rfl
          · exact rows3_full_rows rest row (by rw [hrest]; exact hr)

/-- C9 counterexample: a 23-character offline name is rendered
unchanged by the {1:<22} field — 23 characters long, NOT truncated to
22 as the claim requires. -/
theorem pad22_no_truncation_counterexample :
    pad22 (List.replicate 23 'x') = List.replicate 23 'x'
    ∧ (pad22 (List.replicate 23 'x')).length = 23 := by
  decide

/-- C9 (amended): offline channels are listed in rows of 3 (all rows
before the last hold exactly 3 names, the rows concatenate back to the
offline list); each name is left-aligned in a minimum-width 22 field —
shorter names are padded with spaces to 22, and names of 22 or more
characters are rendered unchanged (never truncated). -/
theorem offline_columns_spec (names : List Str) (name : Str) :
    (offlineRowsOf3 names).flatten = names
    ∧ (∀ row ∈ offlineRowsOf3 names, 0 < row.length ∧ row.length ≤ 3)
    ∧ (∀ row ∈ (offlineRowsOf3 names).dropLast, row.length = 3)
    ∧ (pad22 name).length = max 22 name.length
    ∧ (name.length ≤ 22 → pad22 name = name ++ List.replicate (22 - name.length) ' ')
    ∧ (22 ≤ name.length → pad22 name = name) := by
  refine ⟨rows3_join names, rows3_shape names, rows3_full_rows names, ?_, fun _ => rfl, ?_⟩
  · rw [show pad22 name = name ++ List.replicate (22 - name.length) ' ' from rfl]
    rw [List.length_append, List.length_replicate]
    omega
  · intro h
    unfold pad22
    rw [show 22 - name.length = 0 from by omega]
    simp

/-- Witness for C9 (amended): four names chunk into a full row and a
partial row, a 3-character name is padded to 22, and a 23-character
name is kept whole. -/
theorem offline_columns_spec_witness :
    (offlineRowsOf3 ["a".toList, "b".toList, "c".toList, "d".toList]).flatten
      = ["a".toList, "b".toList, "c".toList, "d".toList]
    ∧ pad22 ("abc".toList) = "abc".toList ++ List.replicate (22 - ("abc".toList).length) ' '
    ∧ pad22 (List.replicate 23 'x') = List.replicate 23 'x' :=
  ⟨(offline_columns_spec ["a".toList, "b".toList, "c".toList, "d".toList]
      ("abc".toList)).1,
   (offline_columns_spec ["a".toList, "b".toList, "c".toList, "d".toList]
      ("abc".toList)).2.2.2.2.1 (by decide),
   (offline_columns_spec ["a".toList, "b".toList, "c".toList, "d".toList]
      (List.replicate 23 'x')).2.2.2.2.2 (by decide)⟩

end AreTheyLive
